import Mathlib

/-!
Shallow embedding of the test-object-model core (src/dist/index.mjs):
the lifecycle state machine (class StateMachine, specialised by the Tom
constructor edge set), the composite tree with pre-order iteration, the
skip/only resolution pass, duplicate-name checked insertion, reset,
combine/validate, and the timed run() contract.  Asynchronous bodies are
modelled as an explicit outcome sum (immediate value / immediate throw /
deferred settlement after a delay); the Promise.race against raceTimeout
is decided by comparing the body settlement delay with the configured
timeout.  Event emission is modelled as an accumulated trace.
-/

/-- Lifecycle states of a test node, as installed by the Tom constructor
(src/dist/index.mjs lines 606-612). -/
inductive TState where
  | pending
  | inProgress
  | skipped
  | ignored
  | pass
  | fail
deriving DecidableEq, Repr

/-- One valid move of the state machine: a set of source states and a set
of target states (fsm-base normalises both to arrays). -/
structure Move where
  from_ : List TState
  to_ : List TState
deriving DecidableEq, Repr

/-- The edge set given to the StateMachine by the Tom constructor. -/
def tomMoves : List Move :=
  [ ⟨[.pending], [.inProgress]⟩
  , ⟨[.pending], [.skipped]⟩
  , ⟨[.pending], [.ignored]⟩
  , ⟨[.inProgress], [.pass]⟩
  , ⟨[.inProgress], [.fail]⟩ ]

/-- The same edge set as a list of (from, to) pairs, for statements. -/
def tomEdges : List (TState × TState) :=
  [ (.pending, .inProgress)
  , (.pending, .skipped)
  , (.pending, .ignored)
  , (.inProgress, .pass)
  , (.inProgress, .fail) ]

/-- Errors thrown by StateMachine.setState.  Both carry err.name =
INVALID_MOVE in the source; the message contents are carried
structurally (target, previous state, allowed sources). -/
inductive SMErr where
  | invalidState (target : TState)
  | invalidMove (target : TState) (prev : TState) (froms : List TState)
deriving DecidableEq, Repr

/-- err.name, as set by the source on both failure paths. -/
def SMErr.errName : SMErr → String := fun _ => "INVALID_MOVE"

/-- Events observable from one node (payload arguments are not modelled;
bodyInvoked is a trace marker for the invocation of the test body). -/
inductive Ev where
  | stateChange (next prev : TState)
  | named (s : TState)
  | startEv
  | endEv
  | resetEv (prev : TState)
  | bodyInvoked
deriving DecidableEq, Repr

/-- The forEach loop inside StateMachine.setState: each matching move
re-reads the live current state, sets it to the target, and emits the
state event followed by the event named after the target state.  The
previous state in the state event is captured before the loop. -/
def smLoop (target prev : TState) :
    List Move → TState → Bool → List Ev → TState × Bool × List Ev
  | [], cur, moved, evs => (cur, moved, evs)
  | m :: rest, cur, moved, evs =>
    if m.from_.contains cur && m.to_.contains target then
      smLoop target prev rest target true
        (evs ++ [.stateChange target prev, .named target])
    else
      smLoop target prev rest cur moved evs

/-- StateMachine.setState (src/dist/index.mjs lines 470-513): no-op when
the target equals the current state; Invalid state error when no move
targets the requested state; otherwise run the move loop and fail with
the enumerated-sources error when no move matched. -/
def smSetState (moves : List Move) (cur target : TState) :
    Except SMErr (TState × List Ev) :=
  if cur = target then .ok (cur, [])
  else if !(moves.any fun m => m.to_.contains target) then
    .error (.invalidState target)
  else
    let r := smLoop target cur moves cur false []
    if r.2.1 then .ok (r.1, r.2.2)
    else
      .error (.invalidMove target cur
        ((moves.filter fun m => m.to_.contains target).flatMap Move.from_))

/-- Recognised construction options (src/dist/index.mjs lines 589-665).
The todo field mirrors an options key the constructor stores in
this.options but never reads. -/
structure TOptions where
  timeout : Nat := 10000
  maxConcurrency : Option Nat := none
  skip : Bool := false
  only : Bool := false
  todo : Bool := false
deriving DecidableEq, Repr

/-- Behaviour of a test body: an immediate (non-thenable) value, an
immediate throw, or a promise settling after a delay in ms. -/
inductive BodyOutcome where
  | sync (v : Nat)
  | syncThrow (msg : String)
  | asyncResolve (delay : Nat) (v : Nat)
  | asyncReject (delay : Nat) (msg : String)
deriving DecidableEq, Repr

/-- True for the promise-returning bodies. -/
def BodyOutcome.isAsync : BodyOutcome → Bool
  | .asyncResolve _ _ => true
  | .asyncReject _ _ => true
  | _ => false

/-- Settlement delay of a promise-returning body (0 for sync bodies). -/
def BodyOutcome.delay : BodyOutcome → Nat
  | .asyncResolve d _ => d
  | .asyncReject d _ => d
  | _ => 0

/-- Per-node fields set by the Tom constructor. -/
structure TomData where
  name : String
  testFn : Option BodyOutcome
  index : Nat
  state : TState
  timeout : Nat
  ended : Bool
  result : Option Nat
  maxConcurrency : Nat
  markedSkip : Bool
  markedOnly : Bool
  options : TOptions
deriving DecidableEq, Repr

/-- The Tom constructor on already-disambiguated arguments: name falls
back to tom when empty, timeout defaults through Object.assign, a falsy
maxConcurrency falls back to 10, the marks are copied from the options,
and the options record is retained. -/
def mkTomData (name : String) (testFn : Option BodyOutcome)
    (opts : TOptions) : TomData :=
  { name := if name = "" then "tom" else name
    testFn := testFn
    index := 1
    state := .pending
    timeout := opts.timeout
    ended := false
    result := none
    maxConcurrency :=
      match opts.maxConcurrency with
      | none => 10
      | some 0 => 10
      | some n => n
    markedSkip := opts.skip
    markedOnly := opts.only
    options := opts }

/-- Result of a Tom.setState call: the updated node, the events emitted,
and the error if the underlying machine rejected the move. -/
structure SetStateResult where
  data : TomData
  events : List Ev
  error : Option SMErr
deriving Repr

/-- Tom.setState (src/dist/index.mjs lines 723-731): sets ended before
delegating to the machine when the target is pass or fail, and emits end
after a pass or fail delegation returns. -/
def tomSetState (n : TomData) (target : TState) : SetStateResult :=
  let n1 := if target = .pass ∨ target = .fail then { n with ended := true } else n
  match smSetState tomMoves n1.state target with
  | .error e => ⟨n1, [], some e⟩
  | .ok (st, evs) =>
    let evs := if target = .pass ∨ target = .fail then evs ++ [.endEv] else evs
    ⟨{ n1 with state := st }, evs, none⟩

/-- StateMachine.resetState (src/dist/index.mjs lines 515-521):
unconditionally restore the initial state (pending for a Tom) and emit a
reset event carrying the previous state. -/
def tomResetState (n : TomData) : TomData × List Ev :=
  ({ n with state := .pending }, [.resetEv n.state])

/-- The shallow branch of Tom.reset (src/dist/index.mjs lines 790-795):
index back to 1, resetState, then reapply the originally configured
skip/only marks from the retained options. -/
def tomResetShallow (n : TomData) : TomData × List Ev :=
  let n1 := { n with index := 1 }
  let p := tomResetState n1
  ({ p.1 with markedSkip := p.1.options.skip, markedOnly := p.1.options.only },
    p.2)

/-- The composite tree: a node and its ordered, insertion-order list of
children (composite-class; the parent back-reference is implicit in the
tree shape). -/
inductive TomTree where
  | node (data : TomData) (children : List TomTree)

/-- The data stored at the root of a subtree. -/
def TomTree.data : TomTree → TomData
  | .node d _ => d

/-- The ordered child list. -/
def TomTree.children : TomTree → List TomTree
  | .node _ cs => cs

mutual

/-- Depth-first pre-order iteration (Composite Symbol.iterator): the node
itself followed by the full iteration of each child in order. -/
def preorder : TomTree → List TomData
  | .node d cs => d :: preorderList cs

/-- Pre-order over a list of sibling subtrees. -/
def preorderList : List TomTree → List TomData
  | [] => []
  | t :: ts => preorder t ++ preorderList ts

end

mutual

/-- Apply a per-node update to every node of the tree. -/
def mapTree (f : TomData → TomData) : TomTree → TomTree
  | .node d cs => .node (f d) (mapTreeList f cs)

/-- mapTree over a list of sibling subtrees. -/
def mapTreeList (f : TomData → TomData) : List TomTree → List TomTree
  | [] => []
  | t :: ts => mapTree f t :: mapTreeList f ts

end

/-- Locate the subtree addressed by a path of child positions from the
root (the empty path addresses the root itself). -/
def getSubtree : TomTree → List Nat → Option TomTree
  | t, [] => some t
  | .node _ cs, i :: rest =>
    match cs.get? i with
    | none => none
    | some c => getSubtree c rest

/-- Replace the subtree addressed by a path, rebuilding the tree. -/
def updateAt (f : TomTree → TomTree) : TomTree → List Nat → Option TomTree
  | t, [] => some (f t)
  | .node d cs, i :: rest =>
    match cs.get? i with
    | none => none
    | some c =>
      match updateAt f c rest with
      | none => none
      | some c2 => some (.node d (cs.set i c2))

/-- Tom._onlyExists (src/dist/index.mjs lines 711-713): true when any
node of the whole tree carries the only mark. -/
def onlyExists (t : TomTree) : Bool :=
  (preorder t).any fun d => d.markedOnly

/-- Tom._skipLogic (src/dist/index.mjs lines 715-721): when an only mark
exists anywhere, overwrite every node effective-skip with the negation
of its only mark; otherwise change nothing. -/
def skipLogicTree (t : TomTree) : TomTree :=
  if onlyExists t then
    mapTree (fun d => { d with markedSkip := !d.markedOnly }) t
  else t

/-- Structural errors thrown by the tree-building operations. -/
inductive TomError where
  | duplicateName (name : String)
  | invalidPath
  | validTomRequired (keys : List String)
deriving DecidableEq, Repr

/-- this.add(test) followed by test.index = this.children.length: append
the freshly constructed child and give it the new sibling count as its
1-based index. -/
def insertChild (child : TomData) (s : TomTree) : TomTree :=
  .node s.data
    (s.children ++ [.node { child with index := s.children.length + 1 } []])

/-- Tom.test (src/dist/index.mjs lines 675-687) applied to the parent
addressed by path inside the root tree t: scan the parent and all of its
descendants for the name, construct the child, append it, set its index
to the new sibling count, then re-run skip/only resolution over the
whole tree from the root. -/
def testAt (t : TomTree) (path : List Nat) (name : String)
    (body : Option BodyOutcome) (opts : TOptions) : Except TomError TomTree :=
  match getSubtree t path with
  | none => .error .invalidPath
  | some p =>
    if (preorder p).any fun d => d.name = name then
      .error (.duplicateName name)
    else
      match updateAt (insertChild (mkTomData name body opts)) t path with
      | none => .error .invalidPath
      | some t2 => .ok (skipLogicTree t2)

/-- Tom.reset with deep = true (src/dist/index.mjs lines 786-789): the
pre-order loop calls the shallow reset on the node and every descendant;
each shallow reset touches only its own node, so the loop is the
per-node shallow reset mapped over the subtree. -/
def tomResetDeep (t : TomTree) : TomTree :=
  mapTree (fun d => (tomResetShallow d).1) t

/-- raceTimeout rejects with this message when no message is supplied
(src/dist/index.mjs lines 1-9). -/
def raceTimeoutMsg (ms : Nat) : String :=
  "Timeout expired [" ++ toString ms ++ "]"

/-- The rejection value of a run: a body error, the raceTimeout error, or
an invalid state transition thrown synchronously inside run. -/
inductive RunError where
  | bodyError (msg : String)
  | timeoutExpired (ms : Nat)
  | stateError (e : SMErr)
deriving DecidableEq, Repr

/-- The message of a run rejection (the raceTimeout branch is the
message built by raceTimeout with no explicit msg argument). -/
def RunError.message : RunError → String
  | .bodyError m => m
  | .timeoutExpired ms => raceTimeoutMsg ms
  | .stateError _ => "INVALID_MOVE"

/-- Full observable result of one run: the updated node, the emitted
event trace, and the settlement of the returned promise. -/
structure RunResult where
  data : TomData
  events : List Ev
  outcome : Except RunError (Option Nat)
deriving Repr

/-- Tom.run (src/dist/index.mjs lines 738-775).  With no body the node is
transitioned to ignored and the promise resolves with no value.  With a
body and effective-skip the node is transitioned to skipped without
invoking the body.  Otherwise the node moves to in-progress, start is
emitted and the body is invoked; a promise body is raced against
raceTimeout(timeout): the body wins when its delay is within the
timeout, otherwise the timeout rejection wins; success stores the result
and transitions pass, any failure transitions fail and the run rejects
with the error.  A setState rejection propagates as the rejection of the
async run. -/
def run (n : TomData) : RunResult :=
  match n.testFn with
  | none =>
    let r := tomSetState n .ignored
    match r.error with
    | some e => ⟨r.data, r.events, .error (.stateError e)⟩
    | none => ⟨r.data, r.events, .ok none⟩
  | some body =>
    if n.markedSkip then
      let r := tomSetState n .skipped
      match r.error with
      | some e => ⟨r.data, r.events, .error (.stateError e)⟩
      | none => ⟨r.data, r.events, .ok none⟩
    else
      let r1 := tomSetState n .inProgress
      match r1.error with
      | some e => ⟨r1.data, r1.events, .error (.stateError e)⟩
      | none =>
        let evs := r1.events ++ [.startEv, .bodyInvoked]
        match body with
        | .sync v =>
          let r2 := tomSetState { r1.data with result := some v } .pass
          ⟨r2.data, evs ++ r2.events, .ok (some v)⟩
        | .syncThrow m =>
          let r2 := tomSetState r1.data .fail
          ⟨r2.data, evs ++ r2.events, .error (.bodyError m)⟩
        | .asyncResolve d v =>
          if d ≤ n.timeout then
            let r2 := tomSetState { r1.data with result := some v } .pass
            ⟨r2.data, evs ++ r2.events, .ok (some v)⟩
          else
            let r2 := tomSetState r1.data .fail
            ⟨r2.data, evs ++ r2.events, .error (.timeoutExpired n.timeout)⟩
        | .asyncReject d m =>
          if d ≤ n.timeout then
            let r2 := tomSetState r1.data .fail
            ⟨r2.data, evs ++ r2.events, .error (.bodyError m)⟩
          else
            let r2 := tomSetState r1.data .fail
            ⟨r2.data, evs ++ r2.events, .error (.timeoutExpired n.timeout)⟩

/-- The own enumerable property names of a constructed Tom instance, in
assignment order (state, children and parent are accessor-backed and not
own keys). -/
def tomOwnKeys : List String :=
  ["name", "testFn", "index", "timeout", "ended", "result",
   "maxConcurrency", "markedSkip", "markedOnly", "options"]

/-- Every model node is a genuine constructed Tom, so its own key set is
tomOwnKeys regardless of field values. -/
def keysOfTom (_ : TomData) : List String := tomOwnKeys

/-- Tom.validate (src/dist/index.mjs lines 821-828) on the own key set of
the candidate: fails, carrying the candidate, unless every one of name,
testFn, index and ended is among its keys. -/
def validateCand (keys : List String) : Except TomError Unit :=
  if ["name", "testFn", "index", "ended"].all (fun p => keys.contains p) then
    .ok ()
  else
    .error (.validTomRequired keys)

/-- The fresh root constructed by combine for several nodes:
new this(name, \x7b maxConcurrency: 1 \x7d), so the options are the
timeout default plus maxConcurrency 1 and no body. -/
def combineRootData (name : String) : TomData :=
  mkTomData name none { timeout := 10000, maxConcurrency := some 1 }

/-- Tom.combine (src/dist/index.mjs lines 804-819): more than one node
builds the fresh sequential root, validates each given node and attaches
it as a child; exactly one node is validated and returned as-is; an
empty list validates the missing first element (an empty key set); in
every non-throwing case skip/only resolution is re-run on the result
before returning.  Model nodes are genuine Tom instances, so their key
set is tomOwnKeys. -/
def combine (tests : List TomTree) (name : String) : Except TomError TomTree :=
  if tests.length > 1 then
    match tests.findSome?
        (fun t => match validateCand (keysOfTom t.data) with
          | .error e => some e
          | .ok _ => none) with
    | some e => .error e
    | none => .ok (skipLogicTree (.node (combineRootData name) tests))
  else
    match tests with
    | [] => .error (.validTomRequired [])
    | t :: _ =>
      match validateCand (keysOfTom t.data) with
      | .error e => .error e
      | .ok _ => .ok (skipLogicTree t)

/-- The lifecycle events named by the event-order law, plus the body
marker: start, end, and the pass, fail and skipped state events. -/
def isLifecycleEv : Ev → Bool
  | .startEv => true
  | .endEv => true
  | .bodyInvoked => true
  | .named .pass => true
  | .named .fail => true
  | .named .skipped => true
  | _ => false

/-- Projection of a trace onto the lifecycle events. -/
def lifecycle (evs : List Ev) : List Ev :=
  evs.filter isLifecycleEv

/-- True when the run promise resolved rather than rejected. -/
def runResolved (r : RunResult) : Bool :=
  match r.outcome with
  | .ok _ => true
  | .error _ => false

mutual

/-- Pre-order commutes with a per-node update of every node. -/
theorem preorder_mapTree (f : TomData → TomData) :
    ∀ t : TomTree, preorder (mapTree f t) = (preorder t).map f
  | .node d cs => by
    simp [preorder, mapTree, preorderList_mapTreeList f cs]

/-- List version of preorder_mapTree. -/
theorem preorderList_mapTreeList (f : TomData → TomData) :
    ∀ ts : List TomTree, preorderList (mapTreeList f ts) = (preorderList ts).map f
  | [] => by simp [preorderList, mapTreeList]
  | t :: ts => by
    simp [preorderList, mapTreeList, preorder_mapTree f t,
      preorderList_mapTreeList f ts]

end

/-- The skip/only resolution pass never changes any only mark. -/
theorem onlyExists_skipUpdate (t : TomTree) :
    onlyExists (mapTree (fun d => { d with markedSkip := !d.markedOnly }) t) =
      onlyExists t := by
  unfold onlyExists
  rw [preorder_mapTree, List.any_map]
  rfl

/-- A successfully located path can be rebuilt by updateAt. -/
theorem updateAt_of_getSubtree (f : TomTree → TomTree) :
    ∀ (path : List Nat) (t p : TomTree), getSubtree t path = some p →
      ∃ t2, updateAt f t path = some t2
  | [], t, p, _ => by
    cases t with
    | node d cs => exact ⟨f (.node d cs), by simp [updateAt]⟩
  | i :: rest, .node d cs, p, h => by
    simp only [getSubtree] at h
    match hc : cs.get? i with
    | none => rw [hc] at h; exact absurd h (by simp)
    | some c =>
      rw [hc] at h
      have h2 : getSubtree c rest = some p := h
      obtain ⟨c2, hc2⟩ := updateAt_of_getSubtree f rest c p h2
      refine ⟨.node d (cs.set i c2), ?_⟩
      simp only [updateAt]
      rw [hc]
      show (match updateAt f c rest with
        | none => none
        | some c2 => some (TomTree.node d (cs.set i c2))) =
          some (TomTree.node d (cs.set i c2))
      rw [hc2]

/-- A concrete freshly constructed node used by witnesses. -/
def pendingNode : TomData := mkTomData "one" (some (.sync 1)) {}

/-- Claim C4: the lifecycle state changes only along the declared edge
set (pending to in-progress, skipped or ignored; in-progress to pass or
fail), plus the unconditional resetState back to the initial pending
state; any setState request for a different state outside the edge set
fails with an INVALID_MOVE error and leaves the state unchanged.  A
request for the current state is the documented no-op of the machine. -/
theorem c4_state_transitions (n : TomData) (t : TState) :
    ((tomSetState n t).error = none →
      (tomSetState n t).data.state = t ∧ (t = n.state ∨ (n.state, t) ∈ tomEdges))
    ∧ (t ≠ n.state → (n.state, t) ∉ tomEdges →
        (tomSetState n t).error.isSome = true ∧
        (tomSetState n t).data.state = n.state ∧
        (tomSetState n t).error.map SMErr.errName = some "INVALID_MOVE")
    ∧ (tomResetState n).1.state = .pending := by
  obtain ⟨name, fn, idx, st, tmo, en, res, mc, ms, mo, op⟩ := n
  cases st <;> cases t <;>
    simp [tomSetState, smSetState, smLoop, tomMoves, tomEdges, tomResetState,
      SMErr.errName]

/-- Witness for C4: from pending, a pass request is rejected and the
state stays pending. -/
theorem c4_state_transitions_witness :
    (tomSetState pendingNode .pass).error.isSome = true ∧
    (tomSetState pendingNode .pass).data.state = .pending := by
  have h := (c4_state_transitions pendingNode .pass).2.1 (by decide) (by decide)
  exact ⟨h.1, h.2.1⟩

/-- Claim C10: Tom.setState sets ended before validating a pass or fail
request, so when the current state is neither in-progress nor the
requested state the request throws INVALID_MOVE, the state is unchanged,
and ended remains true afterwards. -/
theorem c10_ended_before_validation (n : TomData) (t : TState)
    (h1 : n.state ≠ .inProgress) (h2 : t ≠ n.state)
    (h3 : t = .pass ∨ t = .fail) :
    (tomSetState n t).error.isSome = true ∧
    (tomSetState n t).error.map SMErr.errName = some "INVALID_MOVE" ∧
    (tomSetState n t).data.ended = true ∧
    (tomSetState n t).data.state = n.state := by
  obtain ⟨name, fn, idx, st, tmo, en, res, mc, ms, mo, op⟩ := n
  rcases h3 with rfl | rfl <;> cases st <;> simp_all <;>
    simp [tomSetState, smSetState, smLoop, tomMoves, SMErr.errName]

/-- Witness for C10: a pending node receiving a fail request keeps state
pending yet ends with ended = true. -/
theorem c10_ended_before_validation_witness :
    (tomSetState pendingNode .fail).error.isSome = true ∧
    (tomSetState pendingNode .fail).data.ended = true := by
  have h := c10_ended_before_validation pendingNode .fail (by decide) (by decide)
    (Or.inr rfl)
  exact ⟨h.1, h.2.2.1⟩

def c6root : TomTree := .node (mkTomData "tom" none {}) []

/-- The tree tom with children a and b, built by two insertions. -/
def c6tree : TomTree :=
  match testAt c6root [] "a" none {} with
  | .error _ => c6root
  | .ok t1 =>
    match testAt t1 [] "b" none {} with
    | .error _ => t1
    | .ok t2 => t2

/-- The second child b of c6tree. -/
def c6b : TomData :=
  ((c6tree.children.get? 1).map TomTree.data).getD (mkTomData "x" none {})

/-- Counterexample to claim C6 as stated: node b is pending with sibling
index 2, and reset() changes its index to 1 — an observable change
beyond reapplying the original skip/only marks. -/
theorem c6_reset_counterexample :
    c6b.state = .pending ∧ c6b.index = 2 ∧ (tomResetShallow c6b).1.index = 1 := by
  decide

/-- Claim C6 amended: reset() without deep resets the sibling index to 1,
restores the pending state (emitting a reset event carrying the previous
state), and reapplies the originally configured skip/only marks; every
other field (name, body, timeout, ended, result, maxConcurrency,
options) is unchanged; reset(deep = true) applies the same shallow reset
to the node and every descendant. -/
theorem c6_reset_amended (n : TomData) (t : TomTree) :
    ((tomResetShallow n).1.index = 1
      ∧ (tomResetShallow n).1.state = .pending
      ∧ (tomResetShallow n).1.markedSkip = n.options.skip
      ∧ (tomResetShallow n).1.markedOnly = n.options.only)
    ∧ ((tomResetShallow n).1.name = n.name
      ∧ (tomResetShallow n).1.testFn = n.testFn
      ∧ (tomResetShallow n).1.timeout = n.timeout
      ∧ (tomResetShallow n).1.ended = n.ended
      ∧ (tomResetShallow n).1.result = n.result
      ∧ (tomResetShallow n).1.maxConcurrency = n.maxConcurrency
      ∧ (tomResetShallow n).1.options = n.options)
    ∧ (tomResetShallow n).2 = [.resetEv n.state]
    ∧ preorder (tomResetDeep t) = (preorder t).map (fun d => (tomResetShallow d).1) := by
  refine ⟨⟨rfl, rfl, rfl, rfl⟩, ⟨rfl, rfl, rfl, rfl, rfl, rfl, rfl⟩, rfl, ?_⟩
  simp [tomResetDeep, preorder_mapTree]

/-- Every genuine node passes validation, so the scan finds no error. -/
theorem findSome?_validate_none (ts : List TomTree) :
    ts.findSome?
      (fun t => match validateCand (keysOfTom t.data) with
        | .error e => some e
        | .ok _ => none) = none := by
  induction ts with
  | nil => rfl
  | cons t ts ih => simp [List.findSome?, ih, validateCand, keysOfTom, tomOwnKeys]

def c8a : TomTree := .node (mkTomData "a" (some (.sync 1)) {}) []

def c8b : TomTree := .node (mkTomData "b" (some (.sync 2)) {}) []

/-- Claim C8: combine on more than one node builds a fresh root with
maxConcurrency 1 and no body, validates each node and attaches them as
children, then re-runs skip/only resolution; on exactly one node it
validates and returns that node with resolution re-run; validation
succeeds exactly when the candidate key set exposes name, testFn, index
and ended, and otherwise fails carrying the offending candidate. -/
theorem c8_combine (t1 t2 : TomTree) (rest : List TomTree) (t : TomTree)
    (name : String) :
    combine (t1 :: t2 :: rest) name =
      .ok (skipLogicTree (.node (combineRootData name) (t1 :: t2 :: rest)))
    ∧ combine [t] name = .ok (skipLogicTree t)
    ∧ (combineRootData name).maxConcurrency = 1
    ∧ (combineRootData name).testFn = none
    ∧ (∀ d : TomData, validateCand (keysOfTom d) = .ok ())
    ∧ (∀ keys : List String,
        validateCand keys = .ok () ↔
          (keys.contains "name" ∧ keys.contains "testFn" ∧
           keys.contains "index" ∧ keys.contains "ended"))
    ∧ (∀ keys : List String, validateCand keys ≠ .ok () →
        validateCand keys = .error (.validTomRequired keys)) := by
  refine ⟨?_, ?_, rfl, rfl, fun _ => rfl, fun keys => ?_, fun keys h => ?_⟩
  · simp [combine, findSome?_validate_none]
  · simp [combine, validateCand, keysOfTom, tomOwnKeys]
  · simp [validateCand]
  · unfold validateCand at h ⊢
    split at h
    · exact absurd rfl h
    · rename_i hv
      rw [if_neg hv]

/-- Witness for C8: validation of an empty key set fails carrying it, and
the fresh root of a concrete combine is sequential. -/
theorem c8_combine_witness :
    validateCand [] = .error (.validTomRequired []) ∧
    (combineRootData "root").maxConcurrency = 1 := by
  have h := c8_combine c8a c8b [] c8a "root"
  exact ⟨h.2.2.2.2.2.2 [] (by simp [validateCand]), h.2.2.1⟩

/-- Claim C2: a body that does not settle within the configured timeout
always drives the node to fail (never pass) and the run rejects with the
raceTimeout error naming that timeout. -/
theorem c2_timeout_fail (n : TomData) (b : BodyOutcome)
    (h1 : n.state = .pending) (h2 : n.markedSkip = false)
    (h3 : n.testFn = some b) (h4 : b.isAsync = true)
    (h5 : n.timeout < b.delay) :
    (run n).data.state = .fail ∧ (run n).data.state ≠ .pass ∧
    (run n).outcome = .error (.timeoutExpired n.timeout) ∧
    (RunError.timeoutExpired n.timeout).message = raceTimeoutMsg n.timeout := by
  cases b with
  | sync v => simp [BodyOutcome.isAsync] at h4
  | syncThrow m => simp [BodyOutcome.isAsync] at h4
  | asyncResolve d v =>
    have hd : ¬(d ≤ n.timeout) := by
      simp [BodyOutcome.delay] at h5; omega
    simp [run, h1, h2, h3, hd, tomSetState, smSetState, smLoop, tomMoves,
      RunError.message]
  | asyncReject d m =>
    have hd : ¬(d ≤ n.timeout) := by
      simp [BodyOutcome.delay] at h5; omega
    simp [run, h1, h2, h3, hd, tomSetState, smSetState, smLoop, tomMoves,
      RunError.message]

/-- The concrete timeout example: timeout 150, body resolving after
300ms. -/
def timeoutNode : TomData :=
  mkTomData "tom" (some (.asyncResolve 300 1)) { timeout := 150 }

/-- Witness for C2: the 150ms-timeout node with a 300ms body fails and
rejects with the message Timeout expired [150]. -/
theorem c2_timeout_fail_witness :
    (run timeoutNode).data.state = .fail ∧
    (run timeoutNode).outcome = .error (.timeoutExpired 150) ∧
    (RunError.timeoutExpired 150).message = "Timeout expired [150]" := by
  have h := c2_timeout_fail timeoutNode (.asyncResolve 300 1) rfl rfl rfl rfl
    (by decide)
  exact ⟨h.1, h.2.2.1, rfl⟩

/-- Claim C3: with a body and effective-skip false, a resolving run emits
exactly start, pass, end (in that order, around body invocation) among
the lifecycle events, and a rejecting run emits exactly start, fail,
end; with a body and effective-skip true the run emits only the skipped
event and neither start nor end. -/
theorem c3_event_order (n : TomData) (b : BodyOutcome)
    (h1 : n.state = .pending) (h2 : n.testFn = some b) :
    (n.markedSkip = false →
      (runResolved (run n) = true →
        lifecycle (run n).events =
          [.startEv, .bodyInvoked, .named .pass, .endEv])
      ∧ (runResolved (run n) = false →
        lifecycle (run n).events =
          [.startEv, .bodyInvoked, .named .fail, .endEv]))
    ∧ (n.markedSkip = true →
      lifecycle (run n).events = [.named .skipped]
      ∧ (run n).events.contains .startEv = false
      ∧ (run n).events.contains .endEv = false) := by
  constructor
  · intro hms
    cases b with
    | sync v =>
      simp [run, h1, h2, hms, tomSetState, smSetState, smLoop, tomMoves,
        runResolved, lifecycle, isLifecycleEv]
    | syncThrow m =>
      simp [run, h1, h2, hms, tomSetState, smSetState, smLoop, tomMoves,
        runResolved, lifecycle, isLifecycleEv]
    | asyncResolve d v =>
      by_cases hd : d ≤ n.timeout <;>
        simp [run, h1, h2, hms, hd, tomSetState, smSetState, smLoop, tomMoves,
          runResolved, lifecycle, isLifecycleEv]
    | asyncReject d m =>
      by_cases hd : d ≤ n.timeout <;>
        simp [run, h1, h2, hms, hd, tomSetState, smSetState, smLoop, tomMoves,
          runResolved, lifecycle, isLifecycleEv]
  · intro hms
    simp [run, h1, h2, hms, tomSetState, smSetState, smLoop, tomMoves,
      lifecycle, isLifecycleEv]

/-- A concrete skip-marked node with a body. -/
def skipNode : TomData := mkTomData "one" (some (.sync 1)) { skip := true }

/-- Witness for C3: the concrete passing node emits start, pass, end
around its body, and the concrete skip-marked node emits only the
skipped event. -/
theorem c3_event_order_witness :
    lifecycle (run pendingNode).events =
      [.startEv, .bodyInvoked, .named .pass, .endEv] ∧
    lifecycle (run skipNode).events = [.named .skipped] := by
  have hp := (c3_event_order pendingNode (.sync 1) rfl rfl).1 rfl
  have hs := (c3_event_order skipNode (.sync 1) rfl rfl).2 rfl
  exact ⟨hp.1 rfl, hs.1⟩

/-- A node constructed with a body and the todo option set. -/
def todoNode : TomData := mkTomData "t" (some (.sync 42)) { todo := true }

/-- Counterexample to claim C7 as stated: a node constructed with the
todo mark and a body does not complete without invoking the body — run
invokes the body and transitions to pass (there is no todo state at
all), so todo is not a recognized option of this implementation. -/
theorem c7_todo_counterexample :
    todoNode.options.todo = true ∧
    (run todoNode).events.contains .bodyInvoked = true ∧
    (run todoNode).data.state = .pass ∧
    (run todoNode).outcome = .ok (some 42) :=
  ⟨by decide, by decide, by decide, rfl⟩

/-- Claim C7 amended: the constructor stores the todo option but nothing
reads it: run behaves identically on a node however its options record
is changed, and with a body and no skip mark the body is invoked. -/
theorem c7_todo_ignored (name : String) (b : BodyOutcome) (opts : TOptions) :
    ((run (mkTomData name (some b) opts)).data.state =
        (run (mkTomData name (some b) { opts with todo := false })).data.state
      ∧ (run (mkTomData name (some b) opts)).events =
        (run (mkTomData name (some b) { opts with todo := false })).events
      ∧ (run (mkTomData name (some b) opts)).outcome =
        (run (mkTomData name (some b) { opts with todo := false })).outcome)
    ∧ (opts.skip = false →
        (run (mkTomData name (some b) opts)).events.contains .bodyInvoked
          = true) := by
  obtain ⟨tmo, mco, sk, onl, td⟩ := opts
  constructor
  · cases sk with
    | true => exact ⟨rfl, rfl, rfl⟩
    | false =>
      cases b with
      | sync v => exact ⟨rfl, rfl, rfl⟩
      | syncThrow m => exact ⟨rfl, rfl, rfl⟩
      | asyncResolve d v =>
        by_cases hd : d ≤ tmo <;>
          refine ⟨?_, ?_, ?_⟩ <;>
            simp [run, mkTomData, hd, tomSetState, smSetState, smLoop, tomMoves]
      | asyncReject d m =>
        by_cases hd : d ≤ tmo <;>
          refine ⟨?_, ?_, ?_⟩ <;>
            simp [run, mkTomData, hd, tomSetState, smSetState, smLoop, tomMoves]
  · intro h
    have hsk : sk = false := h
    subst hsk
    cases b with
    | sync v =>
      simp [run, mkTomData, tomSetState, smSetState, smLoop, tomMoves]
    | syncThrow m =>
      simp [run, mkTomData, tomSetState, smSetState, smLoop, tomMoves]
    | asyncResolve d v =>
      by_cases hd : d ≤ tmo <;>
        simp [run, mkTomData, hd, tomSetState, smSetState, smLoop, tomMoves]
    | asyncReject d m =>
      by_cases hd : d ≤ tmo <;>
        simp [run, mkTomData, hd, tomSetState, smSetState, smLoop, tomMoves]

/-- Witness for C7 amended: at the concrete todo-marked node the run is
the same as without the mark and the body is invoked. -/
theorem c7_todo_ignored_witness :
    (run todoNode).outcome =
      (run (mkTomData "t" (some (.sync 42)) {})).outcome ∧
    (run todoNode).events.contains .bodyInvoked = true := by
  have h := c7_todo_ignored "t" (.sync 42) { todo := true }
  exact ⟨h.1.2.2, h.2 rfl⟩

def c1root : TomTree := .node (mkTomData "tom" none {}) []

/-- The tree produced by inserting under the root a child marked both
skip and only. -/
def c1tree : TomTree :=
  match testAt c1root [] "a" none { skip := true, only := true } with
  | .ok t => t
  | .error _ => c1root

/-- Counterexample to claim C1 as stated: after the insertion an only
mark exists in the tree, yet the node carrying an explicit skip mark
(and an only mark) has effective-skip false, not true — the resolution
pass overwrites every effective-skip with the negation of the only
mark. -/
theorem c1_only_wins_counterexample :
    onlyExists c1tree = true ∧
    ((preorder c1tree).any
      fun d => d.options.skip && d.markedOnly && !d.markedSkip) = true := by
  decide

/-- Claim C1 amended: after every insertion, if any node of the whole
tree carries the only mark then every node has effective-skip equal to
the negation of its own only mark — so every node not marked only is
effectively skipped, and every node marked only is effectively not
skipped even when it also carries an explicit skip mark; this holds for
every starting tree, hence independently of insertion order. -/
theorem c1_only_wins_amended (t : TomTree) (path : List Nat) (name : String)
    (b : Option BodyOutcome) (opts : TOptions) (t2 : TomTree)
    (hok : testAt t path name b opts = .ok t2)
    (honly : onlyExists t2 = true) :
    ∀ d ∈ preorder t2, d.markedSkip = !d.markedOnly := by
  simp only [testAt] at hok
  split at hok
  · exact absurd hok (by simp)
  · split at hok
    · exact absurd hok (by simp)
    · split at hok
      · exact absurd hok (by simp)
      · rename_i t3 hu
        have ht2 : t2 = skipLogicTree t3 := by
          cases hok; rfl
        subst ht2
        unfold skipLogicTree at honly ⊢
        by_cases ho : onlyExists t3 = true
        · rw [if_pos ho]
          intro d hd
          rw [preorder_mapTree] at hd
          obtain ⟨d0, _, rfl⟩ := List.mem_map.mp hd
          rfl
        · rw [if_neg ho] at honly
          exact absurd honly ho

/-- Witness for C1 amended: in the concrete tree the root (not marked
only) has effective-skip true, the negation of its only mark. -/
theorem c1_only_wins_witness :
    c1tree.data.markedSkip = !c1tree.data.markedOnly := by
  have h := c1_only_wins_amended c1root [] "a" none
    { skip := true, only := true } c1tree rfl (by decide)
  exact h c1tree.data (by cases c1tree with | node d cs => simp [preorder, TomTree.data])

/-- A single parentless node named a with no children. -/
def c5solo : TomTree := .node (mkTomData "a" none {}) []

/-- Counterexample to claim C5 as stated: the parent has no children at
all — so no existing direct sibling carries the name — yet inserting a
child named like the parent itself fails with the duplicate-name
error. -/
theorem c5_duplicate_name_counterexample :
    c5solo.children = [] ∧
    testAt c5solo [] "a" none {} = .error (.duplicateName "a") :=
  ⟨rfl, rfl⟩

/-- Claim C5 amended: test(name, body, options) on a parent fails with
the duplicate-name error exactly when the parent itself or one of its
existing descendants already carries that name (the scan is the
pre-order iteration of the parent subtree, not the direct children); a
name used elsewhere in the tree, outside the parent subtree, stays
permitted, so the same name is still allowed under different parents. -/
theorem c5_duplicate_name_amended (t : TomTree) (path : List Nat)
    (p : TomTree) (name : String) (b : Option BodyOutcome) (opts : TOptions)
    (hp : getSubtree t path = some p) :
    testAt t path name b opts = .error (.duplicateName name) ↔
      ((preorder p).any fun d => d.name = name) = true := by
  simp only [testAt, hp]
  by_cases hdup : ((preorder p).any fun d => d.name = name) = true
  · simp [hdup]
  · obtain ⟨t3, hu⟩ :=
      updateAt_of_getSubtree (insertChild (mkTomData name b opts)) path t p hp
    simp [hdup, hu]

/-- Witness for C5 amended: at the concrete single node the insertion of
its own name is rejected as a duplicate. -/
theorem c5_duplicate_name_witness :
    testAt c5solo [] "a" none {} = .error (.duplicateName "a") :=
  (c5_duplicate_name_amended c5solo [] c5solo "a" none {} rfl).mpr (by decide)

/-- Claim C9: the duplicate-name scan iterates the parent itself and all
of its descendants, so the insertion fails whenever the requested name
is the parent own name or the name of any existing descendant. -/
theorem c9_deep_scan (t : TomTree) (path : List Nat) (p : TomTree)
    (name : String) (b : Option BodyOutcome) (opts : TOptions)
    (hp : getSubtree t path = some p)
    (hname : p.data.name = name ∨
      ((preorderList p.children).any fun d => d.name = name) = true) :
    testAt t path name b opts = .error (.duplicateName name) := by
  have hany : ((preorder p).any fun d => d.name = name) = true := by
    cases p with
    | node d cs =>
      rcases hname with h | h
      · simp only [TomTree.data] at h
        simp [preorder, h]
      · simp only [TomTree.children] at h
        simp [preorder, h]
  simp only [testAt, hp]
  rw [if_pos hany]

/-- The tree p with a single child named c. -/
def c9tree : TomTree :=
  match testAt (.node (mkTomData "p" none {}) []) [] "c" none {} with
  | .ok t => t
  | .error _ => .node (mkTomData "p" none {}) []

/-- Witness for C9: inserting under p a second child named like the
existing descendant c is rejected as a duplicate. -/
theorem c9_deep_scan_witness :
    testAt c9tree [] "c" none {} = .error (.duplicateName "c") :=
  c9_deep_scan c9tree [] c9tree "c" none {} rfl (Or.inr (by decide))
